import Mathlib

/-!
# Verification of `parse_lazyapply.py`

Shallow embedding of the landing-page report generator in
`src/parse_lazyapply.py`.  The script parses one HTML file with
BeautifulSoup and prints six labeled report sections.  Here the parsed
document is modelled as a tree of element/text nodes (the output of the
external HTML parser, which is out of scope per the spec), and each
BeautifulSoup query used by the script is translated to a Lean function
with the library's documented semantics:

* `find_all` / `find` scan the document's descendants in document
  (preorder) order;
* `get_text(strip=True, separator=sep)` strips each descendant text run,
  drops runs that become empty, and joins the rest with `sep` (the
  default separator is the empty string);
* `tag.string` is the unique text child of a tag, looking through chains
  of single-child tags, and `None` when the tag has zero children or
  more than one child;
* `find_all(string=...)` scans the document's text nodes in document
  order; `.parent` of a text node is its immediate enclosing element
  (the document root for top-level text).

Python string primitives (`str.strip`, `str.lower`, substring `in`) are
given explicit executable models over the character list of a string.
-/

namespace JobSprint

/-- The whitespace characters stripped by Python's `str.strip()`
(space, tab, newline, carriage return, vertical tab, form feed). -/
def isPySpace (c : Char) : Bool :=
  c == ' ' || c == '\t' || c == '\n' || c == '\r' || c == '\x0b' || c == '\x0c'

/-- Python `str.strip()`: drop leading and trailing whitespace. -/
def pyStrip (s : String) : String :=
  String.mk (((s.data.dropWhile isPySpace).reverse.dropWhile isPySpace).reverse)

/-- ASCII lower-casing of one character, as Python `str.lower()` does on
ASCII input. -/
def lowerChar (c : Char) : Char :=
  if 'A' ≤ c && c ≤ 'Z' then Char.ofNat (c.toNat + 32) else c

/-- Python `str.lower()` (ASCII fragment). -/
def pyLower (s : String) : String := String.mk (s.data.map lowerChar)

/-- `listStartsWith pat l` holds when `pat` is an initial segment of `l`. -/
def listStartsWith : List Char → List Char → Bool
  | [], _ => true
  | _ :: _, [] => false
  | a :: as, b :: bs => a == b && listStartsWith as bs

/-- `listSub pat l` holds when `pat` occurs contiguously inside `l`. -/
def listSub (pat : List Char) : List Char → Bool
  | [] => listStartsWith pat []
  | b :: bs => listStartsWith pat (b :: bs) || listSub pat bs

/-- Python substring containment `pat in s`. -/
def strContainsSub (s pat : String) : Bool := listSub pat.data s.data

/-- Python `c in s` for a single character. -/
def hasChar (s : String) (c : Char) : Bool := s.data.any (fun d => d == c)

/-- A node of the parsed HTML document: an element with a tag name, an
attribute list and children, or a text node.  This is the document-tree
data model of the spec (attributes are kept as the raw strings the
parser read). -/
inductive Node where
  | text (s : String)
  | elem (tag : String) (attrs : List (String × String)) (children : List Node)

/-- The value of attribute `name` on an element node, if present
(first binding wins, as in an attribute dictionary built left to
right). -/
def attrVal (n : Node) (name : String) : Option String :=
  match n with
  | .elem _ attrs _ => (attrs.find? (fun p => p.1 == name)).map (fun p => p.2)
  | .text _ => none

/-- `isTag n t`: `n` is an element with tag name `t`. -/
def isTag (n : Node) (t : String) : Bool :=
  match n with
  | .elem u _ _ => u == t
  | .text _ => false

mutual
/-- All nodes of the subtree rooted at `n`, in document (preorder)
order, `n` first. -/
def subtree : Node → List Node
  | .text s => [.text s]
  | .elem t a cs => .elem t a cs :: subtreeList cs
/-- Concatenated subtrees of a list of siblings, left to right. -/
def subtreeList : List Node → List Node
  | [] => []
  | c :: cs => subtree c ++ subtreeList cs
end

/-- The descendants of the document root in document order (what
BeautifulSoup's `soup.descendants` iterates over: every node strictly
below the root). -/
def descendants : Node → List Node
  | .text _ => []
  | .elem _ _ cs => subtreeList cs

mutual
/-- The raw strings of all text nodes in the subtree at `n`, in document
order (BeautifulSoup's `tag.strings`). -/
def strsOf : Node → List String
  | .text s => [s]
  | .elem _ _ cs => strsOfList cs
/-- Concatenated text runs of a list of siblings, left to right. -/
def strsOfList : List Node → List String
  | [] => []
  | c :: cs => strsOf c ++ strsOfList cs
end

/-- BeautifulSoup `get_text(strip=True, separator=sep)`: strip every
descendant text run, drop the runs that strip to empty, and join the
remainder with `sep`.  The script always passes `strip=True`; the
separator is `"\n"` where it passes `separator='\n'` and `""` (the
default) elsewhere. -/
def get_text (sep : String) (n : Node) : String :=
  String.intercalate sep (((strsOf n).map pyStrip).filter (fun s => !(s == "")))

/-- BeautifulSoup's `tag.string`: the single text child, looking through
chains of single-child tags; `none` for zero children or more than one
child. -/
def dotString : Node → Option String
  | .elem _ _ [.text s] => some s
  | .elem _ _ [.elem t a cs] => dotString (.elem t a cs)
  | _ => none

mutual
/-- Text nodes of the subtree at `n` paired with their immediate parent
element, where `p` is the parent of `n` itself. -/
def textsUnder (p : Node) : Node → List (String × Node)
  | .text s => [(s, p)]
  | .elem t a cs => textsUnderList (.elem t a cs) cs
/-- Text/parent pairs of a list of siblings whose common parent is `p`. -/
def textsUnderList (p : Node) : List Node → List (String × Node)
  | [] => []
  | c :: cs => textsUnder p c ++ textsUnderList p cs
end

/-- Every text node of the document paired with its immediate parent
element (for a text node directly under the root, the root itself),
in document order.  This underlies
`soup.find_all(string=lambda t: '$' in t)` followed by `.parent`. -/
def textParents (doc : Node) : List (String × Node) := textsUnder doc doc

/-- `tagIn tags n`: `n` is an element whose tag name is in `tags`
(the list-of-names form of `find_all`'s first argument). -/
def tagIn (tags : List String) (n : Node) : Bool :=
  match n with
  | .elem t _ _ => tags.any (fun x => t == x)
  | .text _ => false

/-- `idIn ids n`: `n` carries an `id` attribute whose value is in `ids`
(the `id=[...]` keyword filter of `find_all`; exact string equality). -/
def idIn (ids : List String) (n : Node) : Bool :=
  match attrVal n "id" with
  | some v => ids.any (fun x => v == x)
  | none => false

/-- `soup.find_all(tags, id=ids)`: all matching elements in document
order. -/
def find_all_by_id (tags : List String) (ids : List String) (doc : Node) : List Node :=
  (descendants doc).filter (fun n => tagIn tags n && idIn ids n)

/-- `soup.find(tags, id=idv)`: the first matching element, if any. -/
def find_by_id (tags : List String) (idv : String) (doc : Node) : Option Node :=
  ((descendants doc).filter (fun n => tagIn tags n && idIn [idv] n)).head?

/-- `soup.find(t)`: the first element with tag name `t`, if any. -/
def find_tag (t : String) (doc : Node) : Option Node :=
  ((descendants doc).filter (fun n => tagIn [t] n)).head?

/-- The `class_=lambda c: c and 'footer' in c.lower()` filter restricted
to `div` tags: a `div` whose `class` attribute is present, non-empty,
and contains the substring `"footer"` case-insensitively. -/
def footerClassPred (n : Node) : Bool :=
  isTag n "div" &&
  (match attrVal n "class" with
   | some c => (!(c == "")) && strContainsSub (pyLower c) "footer"
   | none => false)

/-- The keyword list of the Important Links pass (line 53 of the
script). -/
def keywords : List String :=
  ["chrome", "extension", "privacy", "terms", "about", "blog", "support"]

/-- `soup.find_all('a', href=True)`: all anchors carrying an `href`
attribute (any value, the empty string included), in document order. -/
def anchorsWithHref (doc : Node) : List Node :=
  (descendants doc).filter (fun n => tagIn ["a"] n && (attrVal n "href").isSome)

/-- The body of the link loop (lines 51-54): the printed line for one
anchor when some keyword occurs in the lower-cased href or in the
lower-cased stripped visible text, else nothing. -/
def linkBlock (a : Node) : Option String :=
  if keywords.any (fun k =>
      strContainsSub (pyLower ((attrVal a "href").getD "")) k ||
      strContainsSub (pyLower (get_text "" a)) k)
  then some (get_text "" a ++ ": " ++ (attrVal a "href").getD "")
  else none

/-- The text/parent pairs whose text contains `'$'` (line 27's
`find_all(string=lambda t: '$' in t)` with the parents attached). -/
def dollarPairs (doc : Node) : List (String × Node) :=
  (textParents doc).filter (fun pr => hasChar pr.1 '$')

/-- The blocks printed by the pricing fallback loop (lines 28-31): for
each `$`-containing text node, `parent.get_text(strip=True)` — default
empty separator.  The `if parent:` guard never skips: a found text node
always has a parent holding it. -/
def pricingFallbackBlocks (doc : Node) : List String :=
  (dollarPairs doc).map (fun pr => get_text "" pr.2)

/-- Rendering of a sequence of `print(block)` calls: each block followed
by the newline `print` appends. -/
def printBlocks : List String → String
  | [] => ""
  | b :: bs => b ++ "\n" ++ printBlocks bs

/-- Line 12: the `title` variable.  `soup.title.string if soup.title
else "No Title"`, with a `None` from `.string` formatted by the f-string
as the literal `None`. -/
def titleValue (doc : Node) : String :=
  match find_tag "title" doc with
  | some t =>
    match dotString t with
    | some s => s
    | none => "None"
  | none => "No Title"

/-- Line 13: the printed Title line. -/
def titleSec (doc : Node) : String :=
  "Title: " ++ titleValue doc ++ "\n"

/-- Lines 17-18: blocks of the Features pass. -/
def featuresSec (doc : Node) : String :=
  printBlocks ((find_all_by_id ["section", "div"] ["features", "how-it-works"] doc).map
    (fun e => get_text "\n" e))

/-- Lines 22-31: the Pricing pass — first `section`/`div` with
`id="pricing"` if any, else the `$`-scan fallback. -/
def pricingSec (doc : Node) : String :=
  match find_by_id ["section", "div"] "pricing" doc with
  | some s => get_text "\n" s ++ "\n"
  | none => printBlocks (pricingFallbackBlocks doc)

/-- Lines 35-36: blocks of the Testimonials pass. -/
def testimonialsSec (doc : Node) : String :=
  printBlocks ((find_all_by_id ["section", "div"] ["testimonials", "success"] doc).map
    (fun e => get_text "\n" e))

/-- Lines 40-46: the Footer pass — first `footer` element if any, else
every `div` whose class string contains `"footer"` case-insensitively. -/
def footerSec (doc : Node) : String :=
  match find_tag "footer" doc with
  | some f => get_text "\n" f ++ "\n"
  | none => printBlocks (((descendants doc).filter footerClassPred).map
      (fun d => get_text "\n" d))

/-- Lines 50-54: the printed link lines, in document order. -/
def linkLines (doc : Node) : List String :=
  (anchorsWithHref doc).filterMap linkBlock

/-- The Important Links section body. -/
def linksSec (doc : Node) : String := printBlocks (linkLines doc)

/-- The whole standard output of `parse_file(filename)` on the parsed
document `doc`: every `print(x)` contributes `x ++ "\n"`, and the
bracketed headers are printed as `"\n[...]"` (newline first). -/
def parse_file (filename : String) (doc : Node) : String :=
  "--- Analysis of " ++ filename ++ " ---\n"
  ++ titleSec doc
  ++ "\n[Features / How it works]\n" ++ featuresSec doc
  ++ "\n[Pricing]\n" ++ pricingSec doc
  ++ "\n[Testimonials]\n" ++ testimonialsSec doc
  ++ "\n[Footer]\n" ++ footerSec doc
  ++ "\n[Important Links]\n" ++ linksSec doc

/-- The `__main__` guard (lines 56-58): with `argv` the full
`sys.argv` (program name first), run `parse_file` on `sys.argv[1]`
when it exists, else do nothing.  `fs` maps a filename to the parsed
document the external parser produces for that file's contents. -/
def main_run (fs : String → Node) (argv : List String) : String :=
  if argv.length > 1 then parse_file (argv.getD 1 "") (fs (argv.getD 1 "")) else ""

/-- Split a string into its lines at newline characters (for stating
properties of the printed line structure). -/
def splitLinesAux : List Char → List Char → List String
  | cur, [] => [String.mk cur.reverse]
  | cur, c :: rest =>
      if c == '\n' then String.mk cur.reverse :: splitLinesAux [] rest
      else splitLinesAux (c :: cur) rest

/-- The lines of the produced output. -/
def linesOf (s : String) : List String := splitLinesAux [] s.data

/-- The line immediately following the first occurrence of line `h`. -/
def lineAfter (ls : List String) (h : String) : Option String :=
  match ls with
  | [] => none
  | a :: rest => if a == h then rest.head? else lineAfter rest h

/-- `listEndsNL l`: the last character of `l` is a newline. -/
def listEndsNL : List Char → Bool
  | [] => false
  | [c] => c == '\n'
  | _ :: c :: rest => listEndsNL (c :: rest)

/-- `strEndsNL s`: the string ends with a newline character. -/
def strEndsNL (s : String) : Bool := listEndsNL s.data

/-! ## Spec-side characterizations

These definitions follow the wording of the specification, to be
compared against the functions translated from the source. -/

/-- The spec's Features rule: a `<section>` or `<div>` element whose
`id` attribute is exactly `"features"` or `"how-it-works"`
(full-string, case-sensitive equality). -/
def specFeatureElem (n : Node) : Bool :=
  (isTag n "section" || isTag n "div") &&
  (attrVal n "id" == some "features" || attrVal n "id" == some "how-it-works")

/-- The spec's Pricing rule: a `<section>` or `<div>` element with
`id="pricing"`. -/
def specPricingElem (n : Node) : Bool :=
  (isTag n "section" || isTag n "div") && attrVal n "id" == some "pricing"

/-- The spec's footer fallback rule: a `<div>` whose `class` attribute,
taken as the raw attribute string and compared case-insensitively,
contains the substring `"footer"`. -/
def specFooterDiv (n : Node) : Bool :=
  isTag n "div" &&
  (match attrVal n "class" with
   | some c => strContainsSub (pyLower c) "footer"
   | none => false)

/-- The spec's Important-Links rule for one anchor: keep it iff the
href value (case-insensitively) or the trimmed visible text
(case-insensitively) contains at least one of the keywords; print
`"<visible text>: <href>"`. -/
def specLinkLine (a : Node) : Option String :=
  if (keywords.any fun k => strContainsSub (pyLower ((attrVal a "href").getD "")) k)
      || (keywords.any fun k => strContainsSub (pyLower (get_text "" a)) k)
  then some (get_text "" a ++ ": " ++ (attrVal a "href").getD "")
  else none

/-! ## Helper lemmas -/

theorem beq_some_some (v w : String) : (some v == some w) = (v == w) := rfl

theorem featurePred_eq (n : Node) :
    (tagIn ["section", "div"] n && idIn ["features", "how-it-works"] n) = specFeatureElem n := by
  cases n with
  | text s => rfl
  | elem t a cs =>
    unfold tagIn idIn specFeatureElem isTag
    cases h : attrVal (Node.elem t a cs) "id" with
    | none => simp
    | some v => simp [beq_some_some]

theorem pricingPred_eq (n : Node) :
    (tagIn ["section", "div"] n && idIn ["pricing"] n) = specPricingElem n := by
  cases n with
  | text s => rfl
  | elem t a cs =>
    unfold tagIn idIn specPricingElem isTag
    cases h : attrVal (Node.elem t a cs) "id" with
    | none => simp
    | some v => simp [beq_some_some]

theorem tagIn_single (t : String) (n : Node) : tagIn [t] n = isTag n t := by
  cases n with
  | text s => rfl
  | elem u a cs => simp [tagIn, isTag]

theorem footerPred_eq (n : Node) : footerClassPred n = specFooterDiv n := by
  cases n with
  | text s => rfl
  | elem t a cs =>
    unfold footerClassPred specFooterDiv
    cases h : attrVal (Node.elem t a cs) "class" with
    | none => simp
    | some c =>
      by_cases hc : c = ""
      · subst hc
        cases isTag (Node.elem t a cs) "div" <;> rfl
      · have hne : (c == "") = false := by simp [hc]
        show (isTag (Node.elem t a cs) "div" &&
            ((!(c == "")) && strContainsSub (pyLower c) "footer")) =
          (isTag (Node.elem t a cs) "div" && strContainsSub (pyLower c) "footer")
        rw [hne]
        simp

theorem any_or_distrib (p q : α → Bool) :
    ∀ l : List α, (l.any fun x => p x || q x) = (l.any p || l.any q)
  | [] => rfl
  | a :: l => by
    simp only [List.any_cons, any_or_distrib p q l]
    cases p a <;> cases q a <;> simp

theorem linkBlock_eq (a : Node) : linkBlock a = specLinkLine a := by
  unfold linkBlock specLinkLine
  rw [any_or_distrib]

theorem head_filter_find (p : α → Bool) (l : List α) :
    (l.filter p).head? = l.find? p := List.filter_head? p l

/-- When BeautifulSoup's `.string` resolves on a tag, it is exactly the
concatenated descendant text of that tag. -/
theorem dotString_join : ∀ (t : Node) (s : String),
    dotString t = some s → String.join (strsOf t) = s
  | .elem _ _ [.text u], s, h => by
    simp only [dotString, Option.some.injEq] at h
    simp [strsOf, strsOfList, String.join, h]
  | .elem _ _ [.elem t2 a2 cs2], s, h => by
    have ih := dotString_join (.elem t2 a2 cs2) s (by simpa [dotString] using h)
    simpa [strsOf, strsOfList] using ih

theorem listEndsNL_cons (a : Char) (xs : List Char) (hxs : xs ≠ []) :
    listEndsNL (a :: xs) = listEndsNL xs := by
  cases xs with
  | nil => exact absurd rfl hxs
  | cons b ys => rfl

theorem listEndsNL_append (l m : List Char) (h : listEndsNL m = true) :
    listEndsNL (l ++ m) = true := by
  have hm : m ≠ [] := by
    intro he; rw [he] at h; exact Bool.noConfusion h
  induction l with
  | nil => simpa using h
  | cons a l ih =>
    rw [List.cons_append, listEndsNL_cons]
    · exact ih
    · intro he
      exact hm (List.append_eq_nil.mp he).2

theorem strEndsNL_append (s t : String) (h : strEndsNL t = true) :
    strEndsNL (s ++ t) = true := by
  unfold strEndsNL at *
  rw [String.data_append]
  exact listEndsNL_append _ _ h

theorem strEndsNL_newline (s : String) : strEndsNL (s ++ "\n") = true :=
  strEndsNL_append s "\n" rfl

theorem printBlocks_endsNL (bs : List String) :
    printBlocks bs = "" ∨ strEndsNL (printBlocks bs) = true := by
  induction bs with
  | nil => exact Or.inl rfl
  | cons b bs ih =>
    right
    show strEndsNL (b ++ "\n" ++ printBlocks bs) = true
    cases ih with
    | inl h => rw [h]; simpa using strEndsNL_newline b
    | inr h => exact strEndsNL_append _ _ h

theorem pair_sublist_of_get (v : α) :
    ∀ (l : List α) (i j : Nat) (hi : i < l.length) (hj : j < l.length),
      i < j → l.get ⟨i, hi⟩ = v → l.get ⟨j, hj⟩ = v → List.Sublist [v, v] l := by
  intro l
  induction l with
  | nil => intro i j hi; exact absurd hi (Nat.not_lt_zero i)
  | cons a t ih =>
    intro i j hi hj hij h1 h2
    cases i with
    | zero =>
      cases j with
      | zero => exact absurd hij (Nat.lt_irrefl 0)
      | succ j1 =>
        have hv : a = v := h1
        have h2t : t.get ⟨j1, Nat.lt_of_succ_lt_succ hj⟩ = v := h2
        have hmem : v ∈ t := h2t ▸ t.get_mem j1 (Nat.lt_of_succ_lt_succ hj)
        subst hv
        exact (List.singleton_sublist.mpr hmem).cons₂ a
    | succ i1 =>
      cases j with
      | zero => exact absurd hij (Nat.not_lt_zero (i1 + 1))
      | succ j1 =>
        exact (ih i1 j1 (Nat.lt_of_succ_lt_succ hi) (Nat.lt_of_succ_lt_succ hj)
          (Nat.lt_of_succ_lt_succ hij) h1 h2).cons a

/-! ## Example documents -/

/-- `<html><head><title></title></head></html>`: the title element is
present but empty, so `.string` is `None`. -/
def exEmptyTitle : Node :=
  .elem "[document]" [] [.elem "html" [] [.elem "head" [] [.elem "title" [] []]]]

/-- `<html><head><title>Acme</title></head></html>`. -/
def exAcme : Node :=
  .elem "[document]" [] [.elem "html" [] [.elem "head" [] [.elem "title" [] [.text "Acme"]]]]

/-- `<p>Only $5 <b>now</b></p>`, no pricing element: the dollar text
node's parent has two text runs. -/
def exInlinePrice : Node :=
  .elem "[document]" [] [.elem "p" [] [.text "Only $5 ", .elem "b" [] [.text "now"]]]

/-- `<section id="pricing">$9/mo</section>`. -/
def exPricingPrimary : Node :=
  .elem "[document]" [] [.elem "section" [("id", "pricing")] [.text "$9/mo"]]

/-- `<p>Only $5</p>`, no pricing element. -/
def exPricingFallback : Node :=
  .elem "[document]" [] [.elem "p" [] [.text "Only $5"]]

/-- Two `<footer>` elements in document order. -/
def exTwoFooters : Node :=
  .elem "[document]" []
    [.elem "footer" [] [.text "first footer"], .elem "footer" [] [.text "second footer"]]

/-- `<div class="Site-Footer big">Contact us</div>` and no `<footer>`. -/
def exFooterClass : Node :=
  .elem "[document]" [] [.elem "div" [("class", "Site-Footer big")] [.text "Contact us"]]

/-- `<p>$1<b>mid</b>$2</p>`: two distinct dollar text nodes share the
same immediate parent `<p>`. -/
def exSharedParent : Node :=
  .elem "[document]" [] [.elem "p" [] [.text "$1", .elem "b" [] [.text "mid"], .text "$2"]]

/-- `<div id="features">X</div>`. -/
def exFeatureX : Node :=
  .elem "[document]" [] [.elem "div" [("id", "features")] [.text "X"]]

/-- A small page used for the determinism witness. -/
def exDetPage : Node :=
  .elem "[document]" []
    [.elem "div" [("id", "features")] [.text "Fast"],
     .elem "a" [("href", "/about")] [.text "About"]]

/-! ## Claims -/

/-- C1 counterexample: on a document whose `<title>` element is present
but empty, the program prints `Title: None` — not `Title: ` followed by
the element's (empty) concatenated descendant text, as the claim
states. -/
theorem title_empty_counterexample :
    find_tag "title" exEmptyTitle = some (Node.elem "title" [] []) ∧
    titleSec exEmptyTitle = "Title: None\n" ∧
    titleSec exEmptyTitle ≠
      "Title: " ++ String.join (strsOf (Node.elem "title" [] [])) ++ "\n" := by
  exact ⟨rfl, rfl, by decide⟩

/-- C1 amended: with no `<title>` element the Title line is
`Title: No Title`; when the first `<title>` element's `.string`
resolves (a lone text child, possibly through single-child wrappers)
the line is `Title: ` followed by that element's concatenated
descendant text; when the `<title>` is present but `.string` does not
resolve (empty element, or several children) the line is
`Title: None`. -/
theorem title_line_cases (doc : Node) :
    (find_tag "title" doc = none → titleSec doc = "Title: No Title\n") ∧
    (∀ t, find_tag "title" doc = some t →
      (dotString t = none → titleSec doc = "Title: None\n") ∧
      (∀ s, dotString t = some s →
        titleSec doc = "Title: " ++ String.join (strsOf t) ++ "\n")) := by
  refine ⟨fun h => ?_, fun t ht => ⟨fun hn => ?_, fun s hs => ?_⟩⟩
  · simp [titleSec, titleValue, h]
  · simp [titleSec, titleValue, ht, hn]
  · simp [titleSec, titleValue, ht, hs, dotString_join t s hs]

/-- C1 witness: the amended rule evaluated on an empty-title document
and on `<title>Acme</title>`. -/
theorem title_line_cases_witness :
    titleSec exEmptyTitle = "Title: None\n" ∧ titleSec exAcme = "Title: Acme\n" := by
  constructor
  · exact ((title_line_cases exEmptyTitle).2 (Node.elem "title" [] []) rfl).1 rfl
  · exact ((title_line_cases exAcme).2 (Node.elem "title" [] [Node.text "Acme"]) rfl).2
      "Acme" rfl

/-- C2 counterexample: the Pricing fallback prints the parent of a
`$`-text node with `get_text(strip=True)` — empty separator — so a
parent with the text runs `"Only $5 "` and `"now"` is printed as
`Only $5now`, not newline-joined as the claim states. -/
theorem pricing_fallback_separator_counterexample :
    pricingSec exInlinePrice = "Only $5now\n" ∧
    get_text "\n" (Node.elem "p" [] [Node.text "Only $5 ", Node.elem "b" [] [Node.text "now"]])
      = "Only $5\nnow" ∧
    pricingSec exInlinePrice ≠ "Only $5\nnow" ++ "\n" := by
  exact ⟨rfl, rfl, by decide⟩

/-- C2 amended: every printed block strips each child text run and
drops runs that strip to empty; the Features and Testimonials blocks,
the pricing primary element, the first footer and the footer-fallback
divs all join the runs with a newline separator, while the parent
elements printed by the Pricing fallback's `$`-scan join them with the
empty separator (plain concatenation). -/
theorem text_join_separators (doc : Node) :
    featuresSec doc =
      printBlocks ((find_all_by_id ["section", "div"] ["features", "how-it-works"] doc).map
        (fun e =>
          String.intercalate "\n" (((strsOf e).map pyStrip).filter (fun s => !(s == ""))))) ∧
    testimonialsSec doc =
      printBlocks ((find_all_by_id ["section", "div"] ["testimonials", "success"] doc).map
        (fun e =>
          String.intercalate "\n" (((strsOf e).map pyStrip).filter (fun s => !(s == ""))))) ∧
    (∀ e, find_by_id ["section", "div"] "pricing" doc = some e →
      pricingSec doc =
        String.intercalate "\n" (((strsOf e).map pyStrip).filter (fun s => !(s == ""))) ++ "\n") ∧
    (find_by_id ["section", "div"] "pricing" doc = none →
      pricingSec doc =
        printBlocks ((dollarPairs doc).map (fun pr =>
          String.intercalate "" (((strsOf pr.2).map pyStrip).filter (fun s => !(s == "")))))) ∧
    (∀ f, find_tag "footer" doc = some f →
      footerSec doc =
        String.intercalate "\n" (((strsOf f).map pyStrip).filter (fun s => !(s == ""))) ++ "\n") ∧
    (find_tag "footer" doc = none →
      footerSec doc =
        printBlocks (((descendants doc).filter footerClassPred).map (fun d =>
          String.intercalate "\n" (((strsOf d).map pyStrip).filter (fun s => !(s == "")))))) := by
  refine ⟨rfl, rfl, fun e he => ?_, fun hn => ?_, fun f hf => ?_, fun hn => ?_⟩
  · unfold pricingSec
    rw [he]
    rfl
  · unfold pricingSec
    rw [hn]
    rfl
  · unfold footerSec
    rw [hf]
    rfl
  · unfold footerSec
    rw [hn]
    rfl

/-- C2 witness: the amended separators evaluated concretely on every
branch — the two-run pricing-fallback document, a pricing-primary
document, a first-footer document, a footer-class-fallback document and
a features document. -/
theorem text_join_separators_witness :
    pricingSec exInlinePrice = "Only $5now\n" ∧
    pricingSec exPricingPrimary = "$9/mo\n" ∧
    footerSec exTwoFooters = "first footer\n" ∧
    footerSec exFooterClass = "Contact us\n" ∧
    featuresSec exFeatureX = "X\n" ∧
    testimonialsSec exFeatureX = "" := by
  refine ⟨?_, ?_, ?_, ?_, ?_, ?_⟩
  · exact (text_join_separators exInlinePrice).2.2.2.1 rfl
  · exact (text_join_separators exPricingPrimary).2.2.1
      (Node.elem "section" [("id", "pricing")] [Node.text "$9/mo"]) rfl
  · exact (text_join_separators exTwoFooters).2.2.2.2.1
      (Node.elem "footer" [] [Node.text "first footer"]) rfl
  · exact (text_join_separators exFooterClass).2.2.2.2.2 rfl
  · exact (text_join_separators exFeatureX).1
  · exact (text_join_separators exFeatureX).2.1

/-- C3: when a `<section>`/`<div>` with `id="pricing"` exists, the
Pricing section is exactly the newline-joined trimmed text of the first
such element (the fallback contributes nothing); when none exists, the
section is one block per `$`-containing text node, each block the
trimmed text of that node's immediate parent element. -/
theorem pricing_primary_or_fallback (doc : Node) :
    (∀ e, (descendants doc).find? specPricingElem = some e →
        pricingSec doc = get_text "\n" e ++ "\n") ∧
    ((descendants doc).find? specPricingElem = none →
        pricingSec doc = printBlocks
          (((textParents doc).filter (fun pr => hasChar pr.1 '$')).map
            (fun pr => get_text "" pr.2))) := by
  have hf : find_by_id ["section", "div"] "pricing" doc
      = (descendants doc).find? specPricingElem := by
    unfold find_by_id
    rw [show (fun n => tagIn ["section", "div"] n && idIn ["pricing"] n) = specPricingElem
        from funext pricingPred_eq]
    exact head_filter_find specPricingElem (descendants doc)
  constructor
  · intro e he
    unfold pricingSec
    rw [hf, he]
  · intro he
    unfold pricingSec
    rw [hf, he]
    rfl

/-- C3 witness: `<section id="pricing">$9/mo</section>` prints `$9/mo`
with no fallback output; a document with only `<p>Only $5</p>` prints
the fallback block `Only $5`. -/
theorem pricing_primary_or_fallback_witness :
    pricingSec exPricingPrimary = "$9/mo\n" ∧ pricingSec exPricingFallback = "Only $5\n" := by
  constructor
  · exact (pricing_primary_or_fallback exPricingPrimary).1
      (Node.elem "section" [("id", "pricing")] [Node.text "$9/mo"]) rfl
  · exact (pricing_primary_or_fallback exPricingFallback).2 rfl

/-- C4: with a `<footer>` element present, the Footer section is
exactly the first `<footer>`'s newline-joined trimmed text; with none,
it is one block per `<div>` whose raw `class` attribute string contains
the substring `"footer"` case-insensitively, in document order. -/
theorem footer_first_or_class_fallback (doc : Node) :
    (∀ ft, (descendants doc).find? (fun n => isTag n "footer") = some ft →
        footerSec doc = get_text "\n" ft ++ "\n") ∧
    ((descendants doc).find? (fun n => isTag n "footer") = none →
        footerSec doc = printBlocks (((descendants doc).filter specFooterDiv).map
          (fun d => get_text "\n" d))) := by
  have hf : find_tag "footer" doc = (descendants doc).find? (fun n => isTag n "footer") := by
    unfold find_tag
    rw [show (fun n => tagIn ["footer"] n) = (fun n => isTag n "footer")
        from funext (fun n => tagIn_single "footer" n)]
    exact head_filter_find _ _
  have hfb : (descendants doc).filter footerClassPred
      = (descendants doc).filter specFooterDiv :=
    List.filter_congr (fun n _ => footerPred_eq n)
  constructor
  · intro ft hft
    unfold footerSec
    rw [hf, hft]
  · intro hn
    unfold footerSec
    rw [hf, hn]
    rw [show (match (none : Option Node) with
        | some f => get_text "\n" f ++ "\n"
        | none => printBlocks (((descendants doc).filter footerClassPred).map
            (fun d => get_text "\n" d)))
      = printBlocks (((descendants doc).filter footerClassPred).map
          (fun d => get_text "\n" d)) from rfl]
    rw [hfb]

/-- C4 witness: with two footers only the first is printed; with no
footer, the `Site-Footer` div is printed. -/
theorem footer_first_or_class_fallback_witness :
    footerSec exTwoFooters = "first footer\n" ∧ footerSec exFooterClass = "Contact us\n" := by
  constructor
  · exact (footer_first_or_class_fallback exTwoFooters).1
      (Node.elem "footer" [] [Node.text "first footer"]) rfl
  · exact (footer_first_or_class_fallback exFooterClass).2 rfl

/-- C5: the printed Important-Links lines are exactly, in document
order, one line `"<trimmed visible text>: <href>"` for each anchor that
has an `href` attribute (empty string included) and whose href value or
trimmed visible text contains, case-insensitively, one of the keywords;
anchors without `href` are never considered. -/
theorem important_links_characterization (doc : Node) :
    linkLines doc =
      ((descendants doc).filter (fun n => isTag n "a" && (attrVal n "href").isSome)).filterMap
        specLinkLine := by
  unfold linkLines anchorsWithHref
  rw [show (fun n => tagIn ["a"] n && (attrVal n "href").isSome)
      = (fun n => isTag n "a" && (attrVal n "href").isSome)
      from funext (fun n => by rw [tagIn_single])]
  rw [show linkBlock = specLinkLine from funext linkBlock_eq]

/-- C6: the Features section output is exactly the newline-joined
trimmed text of every `<section>`/`<div>` whose `id` is exactly
`"features"` or `"how-it-works"`, one block per element in document
order, and nothing else. -/
theorem features_section_characterization (doc : Node) :
    featuresSec doc =
      printBlocks (((descendants doc).filter specFeatureElem).map
        (fun e => get_text "\n" e)) := by
  unfold featuresSec find_all_by_id
  rw [List.filter_congr (fun n _ => featurePred_eq n)]

/-- C7: in the Pricing fallback, two distinct `$`-containing text
nodes with the same immediate parent element yield that parent's text
at least twice among the printed blocks — one block per matching text
node, no deduplication. -/
theorem pricing_fallback_duplicates (doc : Node) (i j : Nat)
    (hi : i < (dollarPairs doc).length) (hj : j < (dollarPairs doc).length)
    (hne : i ≠ j)
    (hpar : ((dollarPairs doc).get ⟨i, hi⟩).2 = ((dollarPairs doc).get ⟨j, hj⟩).2) :
    2 ≤ (pricingFallbackBlocks doc).count
      (get_text "" ((dollarPairs doc).get ⟨i, hi⟩).2) := by
  have hlen : (pricingFallbackBlocks doc).length = (dollarPairs doc).length := by
    simp [pricingFallbackBlocks]
  have hi2 : i < (pricingFallbackBlocks doc).length := by rw [hlen]; exact hi
  have hj2 : j < (pricingFallbackBlocks doc).length := by rw [hlen]; exact hj
  have hgi : (pricingFallbackBlocks doc).get ⟨i, hi2⟩
      = get_text "" ((dollarPairs doc).get ⟨i, hi⟩).2 := by
    simp [pricingFallbackBlocks]
  have hpar2 : ((dollarPairs doc)[i]).2 = ((dollarPairs doc)[j]).2 := by
    simpa using hpar
  have hgj : (pricingFallbackBlocks doc).get ⟨j, hj2⟩
      = get_text "" ((dollarPairs doc).get ⟨i, hi⟩).2 := by
    simp [pricingFallbackBlocks, hpar2]
  have hsub : List.Sublist
      [get_text "" ((dollarPairs doc).get ⟨i, hi⟩).2,
       get_text "" ((dollarPairs doc).get ⟨i, hi⟩).2]
      (pricingFallbackBlocks doc) := by
    rcases Nat.lt_or_ge i j with hij | hij
    · exact pair_sublist_of_get _ _ i j hi2 hj2 hij hgi hgj
    · have hlt : j < i := Nat.lt_of_le_of_ne hij (fun e => hne e.symm)
      exact pair_sublist_of_get _ _ j i hj2 hi2 hlt hgj hgi
  have h2 : List.Sublist
      (List.replicate 2 (get_text "" ((dollarPairs doc).get ⟨i, hi⟩).2))
      (pricingFallbackBlocks doc) := by
    simpa [List.replicate] using hsub
  exact List.le_count_iff_replicate_sublist.mpr h2

/-- C7 witness: in `<p>$1<b>mid</b>$2</p>` the two dollar text nodes
share the parent `<p>`, whose concatenated stripped text `$1mid$2` is
printed twice by the fallback. -/
theorem pricing_fallback_duplicates_witness :
    2 ≤ (pricingFallbackBlocks exSharedParent).count "$1mid$2" := by
  have h := pricing_fallback_duplicates exSharedParent 0 1 (by decide) (by decide)
    (by decide) rfl
  exact h

/-- C8 counterexample: a header line is followed directly by that
section's results, not by a blank line.  On `<div id="features">X</div>`
the line right after `[Features / How it works]` is `X`, and the line
right after the analysis header is the Title line. -/
theorem header_blank_line_counterexample :
    lineAfter (linesOf (parse_file "f" exFeatureX)) "[Features / How it works]" = some "X" ∧
    lineAfter (linesOf (parse_file "f" exFeatureX)) "--- Analysis of f ---"
      = some "Title: No Title" ∧
    some "X" ≠ some ("" : String) := by
  exact ⟨rfl, rfl, by decide⟩

/-- C8 amended: the output is the analysis header line, the Title line,
then the five bracketed section headers with exactly the claimed text
and in the claimed order; each bracketed header is printed as
`"\n[...]"`, so it is immediately preceded by a blank line (every
earlier printed chunk ends in a newline or is empty), and each
section's results follow directly on the line after its header. -/
theorem output_section_structure (filename : String) (doc : Node) :
    parse_file filename doc =
      "--- Analysis of " ++ filename ++ " ---\n"
      ++ titleSec doc
      ++ "\n[Features / How it works]\n" ++ featuresSec doc
      ++ "\n[Pricing]\n" ++ pricingSec doc
      ++ "\n[Testimonials]\n" ++ testimonialsSec doc
      ++ "\n[Footer]\n" ++ footerSec doc
      ++ "\n[Important Links]\n" ++ linksSec doc ∧
    strEndsNL (titleSec doc) = true ∧
    (featuresSec doc = "" ∨ strEndsNL (featuresSec doc) = true) ∧
    (pricingSec doc = "" ∨ strEndsNL (pricingSec doc) = true) ∧
    (testimonialsSec doc = "" ∨ strEndsNL (testimonialsSec doc) = true) ∧
    (footerSec doc = "" ∨ strEndsNL (footerSec doc) = true) ∧
    (linksSec doc = "" ∨ strEndsNL (linksSec doc) = true) := by
  refine ⟨rfl, ?_, ?_, ?_, ?_, ?_, ?_⟩
  · exact strEndsNL_newline ("Title: " ++ titleValue doc)
  · exact printBlocks_endsNL _
  · cases h : find_by_id ["section", "div"] "pricing" doc with
    | some s =>
      right
      unfold pricingSec
      rw [h]
      exact strEndsNL_newline _
    | none =>
      unfold pricingSec
      rw [h]
      exact printBlocks_endsNL _
  · exact printBlocks_endsNL _
  · cases h : find_tag "footer" doc with
    | some f =>
      right
      unfold footerSec
      rw [h]
      exact strEndsNL_newline _
    | none =>
      unfold footerSec
      rw [h]
      exact printBlocks_endsNL _
  · exact printBlocks_endsNL _

/-- C9: the report is a pure function of the filename and the parsed
document — two runs on the same unchanged input produce identical
output text. -/
theorem output_deterministic (filename : String) (doc : Node) (out1 out2 : String)
    (h1 : out1 = parse_file filename doc) (h2 : out2 = parse_file filename doc) :
    out1 = out2 := h1.trans h2.symm

/-- C9 witness: two runs on the example page agree. -/
theorem output_deterministic_witness :
    parse_file "page.html" exDetPage = parse_file "page.html" exDetPage :=
  output_deterministic "page.html" exDetPage (parse_file "page.html" exDetPage)
    (parse_file "page.html" exDetPage) rfl rfl

/-- C10: with more than one command-line argument, only the first is
used as the input filename; the run is identical to an invocation with
just that first argument. -/
theorem extra_argv_ignored (fs : String → Node) (prog first : String) (rest : List String) :
    main_run fs (prog :: first :: rest) = main_run fs [prog, first] := by
  unfold main_run
  have h1 : (prog :: first :: rest).length > 1 := by
    simp [List.length_cons]
  have h2 : ([prog, first] : List String).length > 1 := by
    simp
  rw [if_pos h1, if_pos h2]
  rfl

end JobSprint
